import Mathlib

/-!
Verification development for the `get_chunk` crate: a memory-aware adaptive
chunking engine for reading byte sources in bounded-size increments.

The Rust sources embedded here are:
  * `src/chunk/mod.rs`      — the `ChunkSize` sizing policy (`calculate_chunk`
    and its helpers) and the `Memory` probe state;
  * `src/chunk/iterator.rs` — the synchronous reader `FileIter` over an
    in-memory `Cursor<Vec<u8>>` source (`FilePack`, `read_chunk`, `next`,
    the start-position setters);
  * `src/chunk/stream.rs`   — the asynchronous reader `FileStream`
    (`FilePack` with an `Option` buffer, `read_chunk`, `poll_next`).

Modelling conventions:
  * Rust `f64` values (sizes, throughputs, targets) are embedded as exact
    rationals `ℚ`; `f64::MAX` is the exact rational value of that constant.
  * Rust `as u64` / `as usize` casts (which truncate toward zero and
    saturate at the ends of the integer range) are `ratToU64`.
  * The host-memory probe (`Memory::update_ram`) and the read timer
    (`Instant`) are non-deterministic inputs; each pull consumes one value
    from an explicit oracle (`ram : ℚ`, and a `ReadOutcome` carrying the
    elapsed seconds or an I/O error).  An `ioError` outcome models a device
    error raised before any byte was transferred.
  * The in-memory source (`Cursor<Vec<u8>>` behind a `BufReader`) is a list
    of bytes plus a read position; `take(n).read_to_end` reads exactly
    `min n (len - pos)` bytes and cannot fail, and `seek(Start p)` sets the
    position (both are infallible for cursors).
-/

namespace GetChunk

/-- A byte of the source; the engine never inspects byte values, so any
countable carrier works.  We use `Nat` (Rust `u8` values are `< 256`, a
bound the chunking logic never relies on). -/
abbrev Byte := Nat

/-- The exact rational value of `f64::MAX` (= `(2 - 2⁻⁵²)·2¹⁰²³`). -/
def f64MAX : ℚ := 2 ^ 1024 - 2 ^ 971

/-- `u64::MAX` (also `usize::MAX` on the 64-bit targets the crate supports). -/
def u64MAX : Nat := 2 ^ 64 - 1

/-- Rust `f64 as u64` / `f64 as usize`: truncate toward zero, saturating at
`0` below and at `u64::MAX` above.  (`Int.toNat` of the floor is exactly
"truncate toward zero, saturate at 0" for rational inputs.) -/
def ratToU64 (q : ℚ) : Nat := min ⌊q⌋.toNat u64MAX

/-- `src/chunk/mod.rs::data_chunk::ChunkSize` — the sizing mode. -/
inductive ChunkSize where
  | Auto : ChunkSize
  | Percent (p : ℚ) : ChunkSize
  | Bytes (n : Nat) : ChunkSize
deriving Repr, DecidableEq

namespace ChunkSize

/-- `ChunkSize::increase_chunk` from `src/chunk/mod.rs` (lines 155–166):
`(prev * (1 + ((now - prev)/prev).min(0.15))).min(ram*0.85).min(f64::MAX)`. -/
def increase_chunk (ram_available prev_bytes_per_second now_bytes_per_second : ℚ) : ℚ :=
  min (min (prev_bytes_per_second *
        (1 + min ((now_bytes_per_second - prev_bytes_per_second) / prev_bytes_per_second)
          (15/100)))
      (ram_available * (85/100)))
    f64MAX

/-- `ChunkSize::decrease_chunk` from `src/chunk/mod.rs` (lines 168–179):
`(prev * (1 - ((prev - now)/prev).min(0.45))).min(ram*0.85).min(f64::MAX)`. -/
def decrease_chunk (ram_available prev_bytes_per_second now_bytes_per_second : ℚ) : ℚ :=
  min (min (prev_bytes_per_second *
        (1 - min ((prev_bytes_per_second - now_bytes_per_second) / prev_bytes_per_second)
          (45/100)))
      (ram_available * (85/100)))
    f64MAX

/-- `ChunkSize::default_chunk_size` from `src/chunk/mod.rs` (lines 181–185):
`(file_size * (0.1/100)).min(ram*0.85).min(f64::MAX)`. -/
def default_chunk_size (file_size ram_available : ℚ) : ℚ :=
  min (min (file_size * (1/1000)) (ram_available * (85/100))) f64MAX

/-- `ChunkSize::percentage_chunk` from `src/chunk/mod.rs` (lines 187–189):
`(file_size * (percentage.min(100).max(0.1) / 100)).min(ram*0.85)`. -/
def percentage_chunk (file_size ram_available percentage : ℚ) : ℚ :=
  min (file_size * (max (min percentage 100) (1/10) / 100)) (ram_available * (85/100))

/-- `ChunkSize::bytes_chunk` from `src/chunk/mod.rs` (lines 191–193):
`(file_size * (bytes.min(file_size as usize) as f64 / 100)).min(ram*0.85)`. -/
def bytes_chunk (file_size ram_available : ℚ) (bytes : Nat) : ℚ :=
  min (file_size * ((min bytes (ratToU64 file_size) : ℚ) / 100)) (ram_available * (85/100))

/-- `ChunkSize::calculate_chunk` from `src/chunk/mod.rs` (lines 127–153). -/
def calculate_chunk (prev now size ram : ℚ) (mode : ChunkSize) : ℚ :=
  match mode with
  | .Auto =>
      if 0 < prev then
        if 0 < now then
          if now < prev then decrease_chunk ram prev now
          else increase_chunk ram prev now
        else prev
      else default_chunk_size size ram
  | .Percent percent => percentage_chunk size ram percent
  | .Bytes bytes => bytes_chunk size ram bytes

end ChunkSize

/-- `src/chunk/mod.rs::data_chunk::ChunkInfo` — throughput state carried
between pulls.  `now_bytes_per_second` is the achieved throughput of the
most recent read; `prev_bytes_per_second` is (despite its name) the target
size computed by `calculate_chunk` for the most recent read.  Both start at
the sentinel `-1`. -/
structure ChunkInfo where
  now_bytes_per_second : ℚ
  mode : ChunkSize
  prev_bytes_per_second : ℚ
deriving Repr, DecidableEq

/-- `ChunkInfo::default()`. -/
def ChunkInfo.default : ChunkInfo :=
  { now_bytes_per_second := -1, mode := .Auto, prev_bytes_per_second := -1 }

/-- `src/chunk/mod.rs::data_chunk::FileInfo`. -/
structure FileInfo where
  size : ℚ
  start_position : Nat
  chunk_info : ChunkInfo
deriving Repr, DecidableEq

/-- `FileInfo::new(size, start_position)`. -/
def FileInfo.new (size : ℚ) (start_position : Nat) : FileInfo :=
  { size := size, start_position := start_position, chunk_info := ChunkInfo.default }

/-- `FileInfo::default()`. -/
def FileInfo.default : FileInfo := { size := 0, start_position := 0, chunk_info := ChunkInfo.default }

/-- `src/chunk/mod.rs::data_chunk::Chunk` — one unit of bytes plus the
throughput measured while reading it. -/
structure Chunk where
  value : List Byte
  bytes_per_second : ℚ
deriving Repr, DecidableEq

/-- The in-memory source behind the reader: the content of the
`Cursor<Vec<u8>>` plus the current read position (`BufReader` adds no
observable behaviour over a cursor). -/
structure Buffer where
  data : List Byte
  pos : Nat
deriving Repr, DecidableEq

/-- Oracle input for one physical read: either it succeeds and the timer
measures `elapsed` seconds (`elapsed = 0` models `timer.is_zero()`), or the
device fails before transferring any byte (`ioError`, an `io::Error` of the
`ReadFailure` kind). -/
inductive ReadOutcome where
  | ok (elapsed : ℚ) : ReadOutcome
  | ioError : ReadOutcome
deriving Repr, DecidableEq

/-- The error type surfaced by the readers (`std::io::Error`, classified by
origin as in the spec's taxonomy). -/
inductive IOError where
  /-- An I/O error propagated out of the bounded read. -/
  | readFailure : IOError
  /-- `ErrorKind::OutOfMemory, "buffer is empty"` — the stream's source was
  taken and never restored. -/
  | bufferEmpty : IOError
  /-- The spawned task's `JoinHandle` itself failed (stream only). -/
  | taskFailure : IOError
deriving Repr, DecidableEq

/-- The read limit used by both readers' `read_chunk`:
`self.metadata.chunk_info.prev_bytes_per_second.max(1.0) as u64`. -/
def readLimit (prev_bytes_per_second : ℚ) : Nat := ratToU64 (max prev_bytes_per_second 1)

/-- `src/chunk/iterator.rs::FilePack` (over `Cursor<Vec<u8>>`). -/
structure FilePack where
  metadata : FileInfo
  buffer : Buffer
  read_complete : Bool
deriving Repr, DecidableEq

/-- `FilePack::read_chunk` from `src/chunk/iterator.rs` (lines 54–73):
read up to `prev_bytes_per_second.max(1.0) as u64` bytes from the buffer;
mark `read_complete` if nothing was read; report throughput
`len / elapsed`, or carry `prev_bytes_per_second` over when the timer is
zero.  On an I/O error the `?` propagates it before any state of `self`
is updated (the modelled error occurs before any byte is transferred). -/
def FilePack.read_chunk (p : FilePack) (oc : ReadOutcome) :
    Except IOError (Chunk × FilePack) :=
  match oc with
  | .ioError => .error .readFailure
  | .ok elapsed =>
      let bytes := (p.buffer.data.drop p.buffer.pos).take
        (readLimit p.metadata.chunk_info.prev_bytes_per_second)
      .ok ({ value := bytes,
             bytes_per_second :=
               if elapsed ≠ 0 then (bytes.length : ℚ) / elapsed
               else p.metadata.chunk_info.prev_bytes_per_second },
           { p with
               buffer := { p.buffer with pos := p.buffer.pos + bytes.length },
               read_complete := if bytes.isEmpty then true else p.read_complete })

/-- `src/chunk/iterator.rs::FileIter` (the `Memory` probe's `ram_available`
field is refreshed from the oracle on every pull, so it is not part of the
modelled state). -/
structure FileIter where
  file : FilePack
deriving Repr, DecidableEq

/-- `TryFrom<Vec<u8>> for FileIter<Cursor<Vec<u8>>>`
(`src/chunk/iterator.rs`, via `FilePack::new(create_buffer(bytes), 0)`):
size is the buffer length, start position 0, default chunk info. -/
def FileIter.fromVec (bytes : List Byte) : FileIter :=
  { file := { metadata := FileInfo.new (bytes.length : ℚ) 0,
              buffer := { data := bytes, pos := 0 },
              read_complete := false } }

/-- `FileIter::set_mode`. -/
def FileIter.set_mode (it : FileIter) (mode : ChunkSize) : FileIter :=
  { it with file.metadata.chunk_info.mode := mode }

/-- `FileIter::set_start_position_bytes` (lines 166–172):
`start_position := position.min(size as usize)`, then seek there (seeking a
cursor to an absolute offset always succeeds). -/
def FileIter.set_start_position_bytes (it : FileIter) (position : Nat) : FileIter :=
  let start := min position (ratToU64 it.file.metadata.size)
  { it with file.metadata.start_position := start, file.buffer.pos := start }

/-- `FileIter::set_start_position_percent` (lines 181–188):
`start_position := (size * (percent/100)).min(100.0) as usize`, then seek. -/
def FileIter.set_start_position_percent (it : FileIter) (position_percent : ℚ) : FileIter :=
  let start := ratToU64 (min (it.file.metadata.size * (position_percent / 100)) 100)
  { it with file.metadata.start_position := start, file.buffer.pos := start }

/-- `<FileIter as Iterator>::next` (lines 197–223): recompute the target
via `calculate_chunk` with a fresh memory reading (`ram`), store it in
`prev_bytes_per_second`, perform the bounded read, store the achieved
throughput, and yield the bytes — `none` when the chunk is empty,
`some (error e)` when the read failed (no further state change). -/
def FileIter.next (it : FileIter) (ram : ℚ) (oc : ReadOutcome) :
    Option (Except IOError (List Byte)) × FileIter :=
  let target := ChunkSize.calculate_chunk
    it.file.metadata.chunk_info.prev_bytes_per_second
    it.file.metadata.chunk_info.now_bytes_per_second
    it.file.metadata.size ram it.file.metadata.chunk_info.mode
  let it := { it with file.metadata.chunk_info.prev_bytes_per_second := target }
  match it.file.read_chunk oc with
  | .ok (chunk, file') =>
      let it' : FileIter :=
        { file := { file' with metadata.chunk_info.now_bytes_per_second := chunk.bytes_per_second } }
      if chunk.value.isEmpty then (none, it') else (some (.ok chunk.value), it')
  | .error e => (some (.error e), it)

/-- Drop the first value of an oracle. -/
def shift {α : Type} (f : Nat → α) : Nat → α := fun n => f (n + 1)

/-- Drive `FileIter.next` with per-pull oracles for available memory and
elapsed read time, collecting the yielded chunks until the first empty
signal (`none`).  The `Bool` is `true` when the empty terminal signal was
reached within `fuel` pulls (and `false` if fuel ran out or an error
stopped the run). -/
def collectChunks : Nat → FileIter → (Nat → ℚ) → (Nat → ℚ) → List (List Byte) × Bool
  | 0, _, _, _ => ([], false)
  | fuel + 1, it, ram, el =>
      match it.next (ram 0) (.ok (el 0)) with
      | (some (.ok v), it') =>
          let rest := collectChunks fuel it' (shift ram) (shift el)
          (v :: rest.1, rest.2)
      | (none, _) => ([], true)
      | (some (.error _), _) => ([], false)

/-! ### The asynchronous reader, `src/chunk/stream.rs` -/

/-- `std::task::Poll`. -/
inductive Poll (α : Type) where
  | ready (v : α) : Poll α
  | pending : Poll α
deriving Repr, DecidableEq

/-- What the scheduler lets one `poll_next` call observe about the spawned
read task: still running, joined with the read's outcome, or the join
itself failed (`JoinError`). -/
inductive TaskStep where
  | pending : TaskStep
  | joined (oc : ReadOutcome) : TaskStep
  | joinError : TaskStep
deriving Repr, DecidableEq

namespace stream

/-- `src/chunk/stream.rs::FilePack` — unlike the iterator's, its buffer is
an `Option<BufReader<R>>` so that `Default` (used by `mem::take`) can leave
a pack with no source behind. -/
structure FilePack where
  metadata : FileInfo
  buffer : Option Buffer
  read_complete : Bool
deriving Repr, DecidableEq

/-- `impl Default for FilePack` (lines 28–39). -/
def FilePack.default : FilePack :=
  { metadata := FileInfo.default, buffer := none, read_complete := false }

/-- `FilePack::read_chunk` from `src/chunk/stream.rs` (lines 76–111): same
bounded read as the iterator's, but consuming and returning the pack, and
failing with `ErrorKind::OutOfMemory, "buffer is empty"` when the buffer
was taken. -/
def FilePack.read_chunk (p : FilePack) (oc : ReadOutcome) :
    Except IOError (Chunk × FilePack) :=
  match p.buffer with
  | none => .error .bufferEmpty
  | some b =>
      match oc with
      | .ioError => .error .readFailure
      | .ok elapsed =>
          let bytes := (b.data.drop b.pos).take
            (readLimit p.metadata.chunk_info.prev_bytes_per_second)
          .ok ({ value := bytes,
                 bytes_per_second :=
                   if elapsed ≠ 0 then (bytes.length : ℚ) / elapsed
                   else p.metadata.chunk_info.prev_bytes_per_second },
               { p with
                   buffer := some { b with pos := b.pos + bytes.length },
                   read_complete := if bytes.isEmpty then true else p.read_complete })

/-- `src/chunk/stream.rs::FileStream`: the pack plus the at-most-one
in-flight task.  A pending task owns the `FilePack` that was `mem::take`n
into it at spawn time. -/
structure FileStream where
  file : FilePack
  current_task : Option FilePack
deriving Repr, DecidableEq

/-- `TryFrom<Vec<u8>> for FileStream<Cursor<Vec<u8>>>` (via
`FilePack::new(create_buffer(bytes), 0)`). -/
def FileStream.fromVec (bytes : List Byte) : FileStream :=
  { file := { metadata := FileInfo.new (bytes.length : ℚ) 0,
              buffer := some { data := bytes, pos := 0 },
              read_complete := false },
    current_task := none }

/-- `FileStream::set_mode`. -/
def FileStream.set_mode (s : FileStream) (mode : ChunkSize) : FileStream :=
  { s with file.metadata.chunk_info.mode := mode }

/-- `<FileStream as Stream>::poll_next` from `src/chunk/stream.rs`
(lines 276–335).  In source order: (1) recompute the target on whatever
`this.file` currently holds (the real pack when idle, the `Default`
leftover while a task is pending) and store it in
`prev_bytes_per_second`; (2) if no task is in flight, `mem::take`
`this.file` (leaving `FilePack::default()`) and spawn its `read_chunk`;
(3) poll the task: pending is propagated; a joined task either restores
the returned pack, records the achieved throughput and emits the chunk
(`Ready None` when it is empty), or surfaces the read error; a failed join
surfaces as an error of its own.  The scheduler's contribution is the
`step` input. -/
def FileStream.poll_next (s : FileStream) (ram : ℚ) (step : TaskStep) :
    Poll (Option (Except IOError (List Byte))) × FileStream :=
  let target := ChunkSize.calculate_chunk
    s.file.metadata.chunk_info.prev_bytes_per_second
    s.file.metadata.chunk_info.now_bytes_per_second
    s.file.metadata.size ram s.file.metadata.chunk_info.mode
  let file1 : FilePack := { s.file with metadata.chunk_info.prev_bytes_per_second := target }
  let taken : FilePack × Option FilePack :=
    match s.current_task with
    | none => (FilePack.default, some file1)
    | some t => (file1, some t)
  match taken.2 with
  | some fp =>
      match step with
      | .pending => (.pending, { file := taken.1, current_task := some fp })
      | .joinError => (.ready (some (.error .taskFailure)), { file := taken.1, current_task := none })
      | .joined oc =>
          match fp.read_chunk oc with
          | .ok (chunk, fp') =>
              let fp'' : FilePack :=
                { fp' with metadata.chunk_info.now_bytes_per_second := chunk.bytes_per_second }
              if chunk.value.isEmpty then (.ready none, { file := fp'', current_task := none })
              else (.ready (some (.ok chunk.value)), { file := fp'', current_task := none })
          | .error e => (.ready (some (.error e)), { file := taken.1, current_task := none })
  | none => (.ready none, { file := taken.1, current_task := none })

end stream

/-- A consumer of the stream: poll `d` times observing the task still
pending, then once more observing it joined with read outcome `oc`; the
result is the item the final (ready) poll produced.  `rams` supplies the
memory-probe reading of each poll. -/
def pollUntil : Nat → stream.FileStream → (Nat → ℚ) → ReadOutcome →
    Option (Except IOError (List Byte)) × stream.FileStream
  | 0, s, rams, oc =>
      match s.poll_next (rams 0) (.joined oc) with
      | (.ready v, s') => (v, s')
      | (.pending, s') => (none, s')
  | d + 1, s, rams, oc =>
      let r := s.poll_next (rams 0) .pending
      pollUntil d r.2 (shift rams) oc

/-- Drive the stream as `collectChunks` drives the iterator: for the `k`-th
item, poll through `delays k` pending polls and one completing poll (memory
readings `rams k·`, elapsed time `els k`), collecting items until the
stream ends. -/
def streamCollect : Nat → stream.FileStream → (Nat → Nat) → (Nat → Nat → ℚ) → (Nat → ℚ) →
    List (List Byte) × Bool
  | 0, _, _, _, _ => ([], false)
  | fuel + 1, s, delays, rams, els =>
      match pollUntil (delays 0) s (rams 0) (.ok (els 0)) with
      | (some (.ok v), s') =>
          let rest := streamCollect fuel s' (shift delays) (shift rams) (shift els)
          (v :: rest.1, rest.2)
      | (none, _) => ([], true)
      | (some (.error _), _) => ([], false)

/-- The simulation relation between the two readers' packs: the stream pack
holding the same metadata, the same (present) buffer and the same flag. -/
def toS (p : FilePack) : stream.FilePack :=
  { metadata := p.metadata, buffer := some p.buffer, read_complete := p.read_complete }

/-! ### Concrete instances used in scenarios -/

/-- Convenience: the iterator a test harness builds — from an in-memory
source, with a sizing mode, started at a byte offset. -/
def iterFor (data : List Byte) (mode : ChunkSize) (start : Nat) : FileIter :=
  ((FileIter.fromVec data).set_mode mode).set_start_position_bytes start

/-- The bytes of the 13-byte source `"Hello, world!"`. -/
def helloWorld : List Byte := [72, 101, 108, 108, 111, 44, 32, 119, 111, 114, 108, 100, 33]

/-- Reader states reached while pulling from the `"Hello, world!"` source
in `Percent(50)` mode: achieved throughput `now`, stored target `prev`,
read position `pos`, exhausted flag `rc`. -/
def helloState (now prev : ℚ) (pos : Nat) (rc : Bool) : FileIter :=
  ⟨{ metadata :=
       { size := (helloWorld.length : ℚ),
         start_position := 0,
         chunk_info :=
           { now_bytes_per_second := now,
             mode := .Percent 50,
             prev_bytes_per_second := prev } },
     buffer := { data := helloWorld, pos := pos },
     read_complete := rc }⟩

/-! ### Helper lemmas -/

/-- Both readers request at least one byte per bounded read: the `take`
limit `prev.max(1.0) as u64` is at least 1. -/
lemma one_le_readLimit (q : ℚ) : 1 ≤ readLimit q := by
  unfold readLimit ratToU64
  have h1 : (1:ℚ) ≤ max q 1 := le_max_right _ _
  have h2 : (1:ℤ) ≤ ⌊max q 1⌋ := by
    rw [Int.le_floor]; exact_mod_cast h1
  have h3 : (1:Nat) ≤ u64MAX := by norm_num [u64MAX]
  omega

lemma take_append_drop_length {α : Type} (k : Nat) (X : List α) :
    X.take k ++ X.drop (X.take k).length = X := by
  have h : X.take ((X.take k).length) = X.take k := by
    rw [List.length_take]
    rcases le_total k X.length with hk | hk
    · rw [min_eq_left hk]
    · rw [min_eq_right hk, List.take_of_length_le hk, List.take_of_length_le le_rfl]
  calc X.take k ++ X.drop (X.take k).length
      = X.take ((X.take k).length) ++ X.drop ((X.take k).length) := by rw [h]
    _ = X := List.take_append_drop _ _

/-- Core invariant of the synchronous reader: with enough fuel
(one pull more than the bytes left), the run reaches the empty terminal
signal, the collected chunks concatenate to exactly the unread suffix of
the source, and no yielded chunk is empty. -/
theorem collectChunks_spec (fuel : Nat) (it : FileIter) (ram el : Nat → ℚ)
    (h : it.file.buffer.data.length - it.file.buffer.pos < fuel) :
    (collectChunks fuel it ram el).2 = true ∧
    (collectChunks fuel it ram el).1.flatten = it.file.buffer.data.drop it.file.buffer.pos ∧
    ∀ c ∈ (collectChunks fuel it ram el).1, c ≠ [] := by
  induction fuel generalizing it ram el with
  | zero => omega
  | succ n ih =>
      simp only [collectChunks, FileIter.next, FilePack.read_chunk]
      generalize ChunkSize.calculate_chunk it.file.metadata.chunk_info.prev_bytes_per_second
        it.file.metadata.chunk_info.now_bytes_per_second it.file.metadata.size (ram 0)
        it.file.metadata.chunk_info.mode = target
      generalize hbytes : (it.file.buffer.data.drop it.file.buffer.pos).take (readLimit target)
        = bytes
      by_cases hd : bytes.isEmpty
      · -- nothing was read: the source was exhausted
        simp only [hd, if_true]
        have hnil : bytes = [] := List.isEmpty_iff.mp hd
        have hXnil : it.file.buffer.data.drop it.file.buffer.pos = [] := by
          rcases List.take_eq_nil_iff.mp (hbytes ▸ hnil) with hk | hX
          · exact absurd hk (by have := one_le_readLimit target; omega)
          · exact hX
        simp [hXnil]
      · -- a non-empty chunk was read
        simp only [hd, if_false, Bool.false_eq_true]
        have hne : bytes ≠ [] := fun hn => hd (by simp [hn])
        have hlen1 : 1 ≤ bytes.length := by
          cases bytes with
          | nil => exact absurd rfl hne
          | cons a l => simp
        have hlenle : bytes.length ≤ it.file.buffer.data.length - it.file.buffer.pos := by
          rw [← hbytes, List.length_take, List.length_drop]
          omega
        have hlt : it.file.buffer.data.length - (it.file.buffer.pos + bytes.length) < n := by
          omega
        have ih' := ih
          ⟨{ metadata :=
               { size := it.file.metadata.size,
                 start_position := it.file.metadata.start_position,
                 chunk_info :=
                   { now_bytes_per_second := (if el 0 ≠ 0 then (bytes.length : ℚ) / el 0 else target),
                     mode := it.file.metadata.chunk_info.mode,
                     prev_bytes_per_second := target } },
             buffer := { data := it.file.buffer.data, pos := it.file.buffer.pos + bytes.length },
             read_complete := it.file.read_complete }⟩ (shift ram) (shift el) hlt
        refine ⟨ih'.1, ?_, ?_⟩
        · simp only [List.flatten_cons, ih'.2.1]
          rw [← List.drop_drop, ← hbytes]
          exact take_append_drop_length _ _
        · intro c hc
          rcases List.mem_cons.mp hc with rfl | hc
          · exact hne
          · exact ih'.2.2 c hc

lemma collectChunks_succ_ok {fuel : Nat} {it it' : FileIter} {ram el : Nat → ℚ}
    {v : List Byte} (r e : ℚ) (hr : ram 0 = r) (he : el 0 = e)
    (h : it.next r (.ok e) = (some (.ok v), it')) :
    collectChunks (fuel + 1) it ram el =
      (v :: (collectChunks fuel it' (shift ram) (shift el)).1,
       (collectChunks fuel it' (shift ram) (shift el)).2) := by
  simp only [collectChunks, hr, he, h]

lemma collectChunks_succ_none {fuel : Nat} {it it' : FileIter} {ram el : Nat → ℚ}
    (r e : ℚ) (hr : ram 0 = r) (he : el 0 = e)
    (h : it.next r (.ok e) = (none, it')) :
    collectChunks (fuel + 1) it ram el = ([], true) := by
  simp only [collectChunks, hr, he, h]

lemma ratToU64_eq (q : ℚ) (n : Nat) (hq : ⌊q⌋ = (n : ℤ)) (hn : n ≤ u64MAX) :
    ratToU64 q = n := by
  unfold ratToU64
  omega

lemma readLimit_eq (q : ℚ) (n : Nat) (h1 : (1:ℚ) ≤ q) (hq : ⌊q⌋ = (n : ℤ)) (hn : n ≤ u64MAX) :
    readLimit q = n := by
  unfold readLimit
  rw [max_eq_left h1]
  exact ratToU64_eq q n hq hn

lemma ratToU64_natCast (n : Nat) (h : n ≤ u64MAX) : ratToU64 (n : ℚ) = n :=
  ratToU64_eq _ n (by rw [Int.floor_natCast]) h

lemma iterFor_pos (data : List Byte) (mode : ChunkSize) (start : Nat)
    (h : data.length ≤ u64MAX) :
    (iterFor data mode start).file.buffer.pos = min start data.length := by
  simp only [iterFor, FileIter.set_start_position_bytes, FileIter.set_mode, FileIter.fromVec,
    FileInfo.new]
  rw [ratToU64_natCast _ h]

lemma percent50_target (prev now : ℚ) :
    ChunkSize.calculate_chunk prev now (helloWorld.length : ℚ) 1000 (.Percent 50) = 13/2 := by
  simp only [ChunkSize.calculate_chunk, ChunkSize.percentage_chunk, helloWorld]
  norm_num

lemma readLimit_13_2 : readLimit (13/2 : ℚ) = 6 :=
  readLimit_eq _ 6 (by norm_num) (by norm_num) (by norm_num [u64MAX])

lemma hello_step (prev now : ℚ) (pos : Nat) (rc : Bool) :
    (helloState now prev pos rc).next 1000 (.ok 1) =
    (if ((helloWorld.drop pos).take 6).isEmpty then none
       else some (.ok ((helloWorld.drop pos).take 6)),
     helloState (((helloWorld.drop pos).take 6).length : ℚ) (13/2)
       (pos + ((helloWorld.drop pos).take 6).length)
       (if ((helloWorld.drop pos).take 6).isEmpty then true else rc)) := by
  simp only [helloState, FileIter.next, FilePack.read_chunk, percent50_target, readLimit_13_2]
  norm_num
  split <;> rfl

lemma readLimit_of_le_one (q : ℚ) (h : q ≤ 1) : readLimit q = 1 := by
  unfold readLimit
  rw [max_eq_right h]
  exact ratToU64_eq 1 1 (by norm_num) (by norm_num [u64MAX])

lemma read_chunk_corresp (p : FilePack) (oc : ReadOutcome) :
    (toS p).read_chunk oc = (p.read_chunk oc).map (fun x => (x.1, toS x.2)) := by
  cases oc <;> rfl

/-- While a task is in flight, pending polls only scribble a recomputed
target onto the taken-out default pack; the task's result — computed from
the pack captured at spawn time — is what the completing poll surfaces and
restores, independent of those scribbles. -/
lemma pollUntil_task (d : Nat) (g fp : stream.FilePack) (rams : Nat → ℚ) (oc : ReadOutcome)
    (c : Chunk) (fp' : stream.FilePack) (h : fp.read_chunk oc = .ok (c, fp')) :
    pollUntil d ⟨g, some fp⟩ rams oc =
      ((if c.value.isEmpty then none else some (.ok c.value)),
       ⟨{ fp' with metadata.chunk_info.now_bytes_per_second := c.bytes_per_second }, none⟩) := by
  induction d generalizing g rams with
  | zero =>
      simp only [pollUntil, stream.FileStream.poll_next, h]
      by_cases hc : c.value.isEmpty <;> simp [hc]
  | succ n ih =>
      simp only [pollUntil, stream.FileStream.poll_next]
      exact ih _ _

/-- Polling from the idle state spawns the read of the current pack (with
the freshly recomputed target) and, some pending polls later, surfaces its
result. -/
lemma pollUntil_idle (d : Nat) (f : stream.FilePack) (rams : Nat → ℚ) (oc : ReadOutcome)
    (c : Chunk) (fp' : stream.FilePack)
    (h : stream.FilePack.read_chunk
      { f with metadata.chunk_info.prev_bytes_per_second :=
          (ChunkSize.calculate_chunk f.metadata.chunk_info.prev_bytes_per_second
            f.metadata.chunk_info.now_bytes_per_second f.metadata.size (rams 0)
            f.metadata.chunk_info.mode) } oc = .ok (c, fp')) :
    pollUntil d ⟨f, none⟩ rams oc =
      ((if c.value.isEmpty then none else some (.ok c.value)),
       ⟨{ fp' with metadata.chunk_info.now_bytes_per_second := c.bytes_per_second }, none⟩) := by
  cases d with
  | zero =>
      simp only [pollUntil, stream.FileStream.poll_next, h]
      by_cases hc : c.value.isEmpty <;> simp [hc]
  | succ n =>
      simp only [pollUntil, stream.FileStream.poll_next]
      exact pollUntil_task n _ _ _ _ c fp' h

/-- One completed stream item coincides, in output and in successor state,
with one iterator pull fed the same memory reading and elapsed time. -/
lemma stream_step_eq_iter (it : FileIter) (d : Nat) (rams : Nat → ℚ) (e : ℚ) :
    pollUntil d ⟨toS it.file, none⟩ rams (.ok e) =
      ((it.next (rams 0) (.ok e)).1, ⟨toS (it.next (rams 0) (.ok e)).2.file, none⟩) := by
  obtain ⟨c, f', hcf⟩ : ∃ c f',
      FilePack.read_chunk
        { it.file with metadata.chunk_info.prev_bytes_per_second :=
            (ChunkSize.calculate_chunk it.file.metadata.chunk_info.prev_bytes_per_second
              it.file.metadata.chunk_info.now_bytes_per_second it.file.metadata.size (rams 0)
              it.file.metadata.chunk_info.mode) } (.ok e) = .ok (c, f') :=
    ⟨_, _, rfl⟩
  have hstream : stream.FilePack.read_chunk
      { toS it.file with metadata.chunk_info.prev_bytes_per_second :=
          (ChunkSize.calculate_chunk (toS it.file).metadata.chunk_info.prev_bytes_per_second
            (toS it.file).metadata.chunk_info.now_bytes_per_second (toS it.file).metadata.size
            (rams 0) (toS it.file).metadata.chunk_info.mode) } (.ok e) = .ok (c, toS f') := by
    have := read_chunk_corresp
      { it.file with metadata.chunk_info.prev_bytes_per_second :=
          (ChunkSize.calculate_chunk it.file.metadata.chunk_info.prev_bytes_per_second
            it.file.metadata.chunk_info.now_bytes_per_second it.file.metadata.size (rams 0)
            it.file.metadata.chunk_info.mode) } (.ok e)
    rw [hcf] at this
    exact this
  rw [pollUntil_idle d (toS it.file) rams (.ok e) c (toS f') hstream]
  simp only [FileIter.next, hcf]
  by_cases hc : c.value.isEmpty <;> simp only [hc, if_true, if_false] <;> rfl

lemma streamCollect_eq_collectChunks (fuel : Nat) (it : FileIter) (delays : Nat → Nat)
    (rams : Nat → Nat → ℚ) (els : Nat → ℚ) :
    streamCollect fuel ⟨toS it.file, none⟩ delays rams els =
      collectChunks fuel it (fun k => rams k 0) els := by
  induction fuel generalizing it delays rams els with
  | zero => rfl
  | succ n ih =>
      simp only [streamCollect, collectChunks, stream_step_eq_iter it (delays 0) (rams 0) (els 0)]
      cases hn : it.next (rams 0 0) (.ok (els 0)) with
      | mk o it' =>
          cases o with
          | none => rfl
          | some r =>
              cases r with
              | ok v => simp only [ih it' (shift delays) (shift rams) (shift els)]; rfl
              | error er => rfl

/-! ### The claims -/

/-- C1: the Bytes(n) policy does NOT compute `min(n, S)` capped by the
memory ceiling.  At source size `S = 13`, available memory `A = 1000` and
requested count `n = 4`, `bytes_chunk` returns
`13 * (min(4, 13)/100) = 13/25 = 0.52`, not `min(min(4, 13), 0.85·A) = 4`;
consequently the first pull on the 13-byte `"Hello, world!"` source in
`Bytes(4)` mode yields the 1-byte chunk `[72]`, where the crate's own test
`chunk_bytes_t_0` expects the 4-byte chunk `[72, 101, 108, 108]`. -/
theorem C1_bytes_mode_divergence :
    ChunkSize.bytes_chunk 13 1000 4 = 13/25 ∧
    ChunkSize.bytes_chunk 13 1000 4 ≠ min (min 4 13) (1000 * (85/100)) ∧
    (FileIter.next ((FileIter.fromVec helloWorld).set_mode (.Bytes 4)) 1000 (.ok 1)).1
      = some (.ok [72]) := by
  have hsize : ratToU64 (13 : ℚ) = 13 := by
    have := ratToU64_natCast 13 (by norm_num [u64MAX])
    simpa using this
  have hb : ChunkSize.bytes_chunk 13 1000 4 = 13/25 := by
    rw [ChunkSize.bytes_chunk, hsize]
    norm_num
  refine ⟨hb, by rw [hb]; norm_num, ?_⟩
  have htarget : ChunkSize.calculate_chunk (-1) (-1) ((helloWorld.length : ℚ)) 1000 (.Bytes 4)
      = 13/25 := by
    simp only [ChunkSize.calculate_chunk, helloWorld, List.length_cons, List.length_nil]
    norm_num
    exact hb
  have hlim : readLimit (13/25 : ℚ) = 1 := readLimit_of_le_one _ (by norm_num)
  simp only [FileIter.next, FilePack.read_chunk, FileIter.set_mode, FileIter.fromVec,
    FileInfo.new, ChunkInfo.default, htarget, hlim]
  rfl

/-- C2: for every in-memory source, every sizing mode, every configured
start offset and all memory/timing behaviours, the run reaches the empty
terminal signal, the yielded chunks concatenate to exactly the source
content from the (clamped) start offset to the end, and no yielded chunk
is empty; in particular the 13-byte `"Hello, world!"` source in
`Percent(50)` mode yields chunks of 6, 6 and 1 bytes. -/
theorem C2_concat_reproduces_source :
    (∀ (data : List Byte) (mode : ChunkSize) (start : Nat) (ram el : Nat → ℚ),
        data.length ≤ u64MAX →
        (collectChunks (data.length + 1) (iterFor data mode start) ram el).2 = true ∧
        (collectChunks (data.length + 1) (iterFor data mode start) ram el).1.flatten
          = data.drop (min start data.length) ∧
        ∀ c ∈ (collectChunks (data.length + 1) (iterFor data mode start) ram el).1, c ≠ []) ∧
    (collectChunks 14 ((FileIter.fromVec helloWorld).set_mode (.Percent 50))
        (fun _ => 1000) (fun _ => 1)).1 =
      [[72, 101, 108, 108, 111, 44], [32, 119, 111, 114, 108, 100], [33]] ∧
    (collectChunks 14 ((FileIter.fromVec helloWorld).set_mode (.Percent 50))
        (fun _ => 1000) (fun _ => 1)).2 = true := by
  constructor
  · intro data mode start ram el h
    have hdata : (iterFor data mode start).file.buffer.data = data := rfl
    obtain ⟨h1, h2, h3⟩ := collectChunks_spec (data.length + 1) (iterFor data mode start) ram el
      (by rw [hdata, iterFor_pos data mode start h]; omega)
    rw [hdata, iterFor_pos data mode start h] at h2
    exact ⟨h1, h2, h3⟩
  · -- the Percent(50) scenario on the 13-byte source, 4 pulls: 6, 6, 1, empty
    have h0 : (FileIter.fromVec helloWorld).set_mode (.Percent 50) = helloState (-1) (-1) 0 false :=
      rfl
    have e1 : (helloWorld.drop 0).take 6 = [72, 101, 108, 108, 111, 44] := by rfl
    have e2 : (helloWorld.drop 6).take 6 = [32, 119, 111, 114, 108, 100] := by rfl
    have e3 : (helloWorld.drop 12).take 6 = [33] := by rfl
    have e4 : (helloWorld.drop 13).take 6 = [] := by rfl
    have s1 : (helloState (-1) (-1) 0 false).next 1000 (.ok 1) =
        (some (.ok [72, 101, 108, 108, 111, 44]), helloState 6 (13/2) 6 false) := by
      rw [hello_step, e1]; norm_num
    have s2 : (helloState 6 (13/2) 6 false).next 1000 (.ok 1) =
        (some (.ok [32, 119, 111, 114, 108, 100]), helloState 6 (13/2) 12 false) := by
      rw [hello_step, e2]; norm_num
    have s3 : (helloState 6 (13/2) 12 false).next 1000 (.ok 1) =
        (some (.ok [33]), helloState 1 (13/2) 13 false) := by
      rw [hello_step, e3]; norm_num
    have s4 : (helloState 1 (13/2) 13 false).next 1000 (.ok 1) =
        (none, helloState 0 (13/2) 13 true) := by
      rw [hello_step, e4]; norm_num
    rw [h0, show (14:Nat) = 13 + 1 from rfl, collectChunks_succ_ok 1000 1 rfl rfl s1,
      show (13:Nat) = 12 + 1 from rfl, collectChunks_succ_ok 1000 1 rfl rfl s2,
      show (12:Nat) = 11 + 1 from rfl, collectChunks_succ_ok 1000 1 rfl rfl s3,
      show (11:Nat) = 10 + 1 from rfl, collectChunks_succ_none 1000 1 rfl rfl s4]
    exact ⟨rfl, rfl⟩

/-- C2 witness: a concrete run — source `[7, 8]`, `Auto` mode, start
offset 1 — terminates and concatenates to the suffix `[8]`. -/
theorem C2_concat_reproduces_source_witness :
    (collectChunks 3 (iterFor [7, 8] .Auto 1) (fun _ => 50) (fun _ => 1)).2 = true ∧
    (collectChunks 3 (iterFor [7, 8] .Auto 1) (fun _ => 50) (fun _ => 1)).1.flatten = [8] := by
  have h := C2_concat_reproduces_source.1 [7, 8] .Auto 1 (fun _ => 50) (fun _ => 1)
    (by norm_num [u64MAX])
  exact ⟨h.1, h.2.1.trans rfl⟩

/-- C3 counterexample: in Auto mode with a positive previous target
(`P = 100`) and the achieved-throughput sentinel still unset (`N = -1`),
`calculate_chunk` returns `P` unclamped: `100 > 0.85 · 10 = 8.5`. -/
theorem C3_ceiling_counterexample :
    ChunkSize.calculate_chunk 100 (-1) 5 10 .Auto = 100 ∧
    ¬ ChunkSize.calculate_chunk 100 (-1) 5 10 .Auto ≤ 10 * (85/100) := by
  have h : ChunkSize.calculate_chunk 100 (-1) 5 10 .Auto = 100 := by
    simp only [ChunkSize.calculate_chunk]
    norm_num
  exact ⟨h, by rw [h]; norm_num⟩

/-- C3 (amended): the computed target is at most `0.85 × available_memory`
in every mode and branch EXCEPT Auto mode's carry-over branch (previous
target positive, no positive throughput signal), which returns the previous
target without re-clamping. -/
theorem C3_ceiling_amended (prev now size ram : ℚ) (mode : ChunkSize)
    (h : mode = ChunkSize.Auto → 0 < prev → 0 < now) :
    ChunkSize.calculate_chunk prev now size ram mode ≤ ram * (85/100) := by
  cases mode with
  | Auto =>
      simp only [ChunkSize.calculate_chunk]
      by_cases hp : 0 < prev
      · have hn : 0 < now := h rfl hp
        simp only [hp, if_true, hn, if_true]
        by_cases hlt : now < prev
        · simp only [hlt, if_true, ChunkSize.decrease_chunk]
          exact le_trans (min_le_left _ _) (min_le_right _ _)
        · simp only [hlt, if_false, ChunkSize.increase_chunk]
          exact le_trans (min_le_left _ _) (min_le_right _ _)
      · simp only [hp, if_false, ChunkSize.default_chunk_size]
        exact le_trans (min_le_left _ _) (min_le_right _ _)
  | Percent p =>
      simp only [ChunkSize.calculate_chunk, ChunkSize.percentage_chunk]
      exact min_le_right _ _
  | Bytes b =>
      simp only [ChunkSize.calculate_chunk, ChunkSize.bytes_chunk]
      exact min_le_right _ _

/-- C3 witness: the amended ceiling bound at a concrete Auto-mode input
(first cycle: both sentinels unset). -/
theorem C3_ceiling_amended_witness :
    ChunkSize.calculate_chunk (-1) (-1) 13 10 .Auto ≤ 10 * (85/100) :=
  C3_ceiling_amended (-1) (-1) 13 10 .Auto (fun _ hp => absurd hp (by norm_num))

/-- C4 counterexample: with `P = 100`, `N = 50` and `A = 10`, the Auto-mode
target is the ceiling `8.5`, strictly below the claimed lower band
`0.55 · P = 55` — the memory ceiling can undercut the shrink band. -/
theorem C4_auto_band_counterexample :
    ChunkSize.calculate_chunk 100 50 0 10 .Auto = 85/10 ∧
    ¬ ((55/100) * (100:ℚ) ≤ ChunkSize.calculate_chunk 100 50 0 10 .Auto) := by
  have h : ChunkSize.calculate_chunk 100 50 0 10 .Auto = 85/10 := by
    simp only [ChunkSize.calculate_chunk, ChunkSize.decrease_chunk]
    norm_num [f64MAX]
  exact ⟨h, by rw [h]; norm_num⟩

/-- C4 (amended): once throughput history exists (`P > 0`, `N > 0`, and
`P` a representable f64), the next Auto-mode target lies between
`min(0.55·P, 0.85·A)` and `1.15·P`, and never exceeds `0.85·A`: the band
`0.55·P ≤ next` holds except where the memory ceiling undercuts it. -/
theorem C4_auto_band_amended (prev now size ram : ℚ) (hp : 0 < prev) (hn : 0 < now)
    (hmax : prev ≤ f64MAX) :
    min ((55/100) * prev) (ram * (85/100))
        ≤ ChunkSize.calculate_chunk prev now size ram .Auto ∧
    ChunkSize.calculate_chunk prev now size ram .Auto ≤ (115/100) * prev ∧
    ChunkSize.calculate_chunk prev now size ram .Auto ≤ ram * (85/100) := by
  simp only [ChunkSize.calculate_chunk, hp, if_true, hn, if_true]
  by_cases hlt : now < prev
  · simp only [hlt, if_true, ChunkSize.decrease_chunk]
    set d := (prev - now) / prev with hd
    have hd0 : 0 < d := div_pos (by linarith) hp
    have hmin_le : min d (45/100) ≤ 45/100 := min_le_right _ _
    have hmin_ge : (0:ℚ) ≤ min d (45/100) := le_min hd0.le (by norm_num)
    have hraw_ge : (55/100) * prev ≤ prev * (1 - min d (45/100)) := by nlinarith
    have hraw_le : prev * (1 - min d (45/100)) ≤ (115/100) * prev := by nlinarith
    refine ⟨le_min (le_min ?_ (min_le_right _ _)) ?_, ?_, ?_⟩
    · exact le_trans (min_le_left _ _) hraw_ge
    · calc min ((55/100) * prev) (ram * (85/100)) ≤ (55/100) * prev := min_le_left _ _
        _ ≤ prev := by linarith
        _ ≤ f64MAX := hmax
    · exact le_trans (min_le_left _ _) (le_trans (min_le_left _ _) hraw_le)
    · exact le_trans (min_le_left _ _) (min_le_right _ _)
  · simp only [hlt, if_false, ChunkSize.increase_chunk]
    have hge : prev ≤ now := le_of_not_lt hlt
    set i := (now - prev) / prev with hi
    have hi0 : (0:ℚ) ≤ i := div_nonneg (by linarith) hp.le
    have hmin_le : min i (15/100) ≤ 15/100 := min_le_right _ _
    have hmin_ge : (0:ℚ) ≤ min i (15/100) := le_min hi0 (by norm_num)
    have hraw_ge : (55/100) * prev ≤ prev * (1 + min i (15/100)) := by nlinarith
    have hraw_le : prev * (1 + min i (15/100)) ≤ (115/100) * prev := by nlinarith
    refine ⟨le_min (le_min ?_ (min_le_right _ _)) ?_, ?_, ?_⟩
    · exact le_trans (min_le_left _ _) hraw_ge
    · calc min ((55/100) * prev) (ram * (85/100)) ≤ (55/100) * prev := min_le_left _ _
        _ ≤ prev := by linarith
        _ ≤ f64MAX := hmax
    · exact le_trans (min_le_left _ _) (le_trans (min_le_left _ _) hraw_le)
    · exact le_trans (min_le_left _ _) (min_le_right _ _)

/-- C4 witness: the amended band at `P = 4`, `N = 8`, `A = 100`. -/
theorem C4_auto_band_amended_witness :
    min ((55/100) * (4:ℚ)) (100 * (85/100)) ≤ ChunkSize.calculate_chunk 4 8 0 100 .Auto ∧
    ChunkSize.calculate_chunk 4 8 0 100 .Auto ≤ (115/100) * 4 ∧
    ChunkSize.calculate_chunk 4 8 0 100 .Auto ≤ 100 * (85/100) :=
  C4_auto_band_amended 4 8 0 100 (by norm_num) (by norm_num) (by norm_num [f64MAX])

/-- C5: over the same in-memory source and sizing mode, and given the same
per-read memory readings and elapsed times, the asynchronous stream —
polled through any schedule of pending polls — produces exactly the chunk
sequence (and terminal signal) of the synchronous iterator. -/
theorem C5_stream_iter_identical (data : List Byte) (mode : ChunkSize) (fuel : Nat)
    (delays : Nat → Nat) (rams : Nat → Nat → ℚ) (els : Nat → ℚ) :
    streamCollect fuel ((stream.FileStream.fromVec data).set_mode mode) delays rams els =
      collectChunks fuel ((FileIter.fromVec data).set_mode mode) (fun k => rams k 0) els := by
  have h : (stream.FileStream.fromVec data).set_mode mode =
      ⟨toS ((FileIter.fromVec data).set_mode mode).file, none⟩ := rfl
  rw [h, streamCollect_eq_collectChunks]

/-- C6 counterexample: on the 1-byte source, a pull that hits an I/O error
surfaces it, but leaves `read_complete = false`, and the very next pull
succeeds and yields the data — the reader did not transition to
`Completed`. -/
theorem C6_error_counterexample :
    ((FileIter.fromVec [7]).next 1000 .ioError).1 = some (.error .readFailure) ∧
    ((FileIter.fromVec [7]).next 1000 .ioError).2.file.read_complete = false ∧
    (((FileIter.fromVec [7]).next 1000 .ioError).2.next 1000 (.ok 1)).1 = some (.ok [7]) := by
  have htarget0 : ChunkSize.calculate_chunk (-1) (-1) (([7]:List Byte).length : ℚ) 1000 .Auto
      = 1/1000 := by
    simp only [ChunkSize.calculate_chunk, ChunkSize.default_chunk_size]
    norm_num [f64MAX]
  have h1 : (FileIter.fromVec [7]).next 1000 .ioError =
      (some (.error .readFailure),
       ⟨{ metadata :=
            { size := (([7]:List Byte).length : ℚ),
              start_position := 0,
              chunk_info :=
                { now_bytes_per_second := -1,
                  mode := .Auto,
                  prev_bytes_per_second := 1/1000 } },
          buffer := { data := [7], pos := 0 },
          read_complete := false }⟩) := by
    simp only [FileIter.next, FilePack.read_chunk, FileIter.fromVec, FileInfo.new,
      ChunkInfo.default, htarget0]
  have htarget1 : ChunkSize.calculate_chunk (1/1000) (-1) (([7]:List Byte).length : ℚ) 1000 .Auto
      = 1/1000 := by
    simp only [ChunkSize.calculate_chunk]
    norm_num
  have hlim : readLimit (1/1000 : ℚ) = 1 := readLimit_of_le_one _ (by norm_num)
  rw [h1]
  refine ⟨rfl, rfl, ?_⟩
  simp only [FileIter.next, FilePack.read_chunk, htarget1, hlim]
  rfl

/-- C6 (amended): a pull that hits an I/O error surfaces it once for that
pull and performs no internal retry, but the reader does NOT transition to
`Completed`: the buffer, the exhausted flag and the achieved throughput are
all unchanged (only the stored target was already recomputed), so a
subsequent pull may yield data again. -/
theorem C6_error_amended (it : FileIter) (ram : ℚ) :
    (it.next ram .ioError).1 = some (.error .readFailure) ∧
    (it.next ram .ioError).2.file.buffer = it.file.buffer ∧
    (it.next ram .ioError).2.file.read_complete = it.file.read_complete ∧
    (it.next ram .ioError).2.file.metadata.chunk_info.now_bytes_per_second
      = it.file.metadata.chunk_info.now_bytes_per_second := by
  simp [FileIter.next, FilePack.read_chunk]

/-- C7: the percentage start-offset setter caps the resulting byte offset
at the literal value 100, not at `total_size`: on a 50-byte source,
`set_start_position_percent(400)` stores `start_position = 100 > 50`,
violating the claimed `[0, total_size]` clamp (the absolute-bytes setter,
by contrast, always lands within the source, as the last conjunct shows). -/
theorem C7_percent_offset_divergence :
    ((FileIter.fromVec (List.replicate 50 0)).set_start_position_percent
        400).file.metadata.start_position = 100 ∧
    (List.replicate 50 (0:Byte)).length = 50 ∧
    ¬ ((FileIter.fromVec (List.replicate 50 0)).set_start_position_percent
        400).file.metadata.start_position ≤ (List.replicate 50 (0:Byte)).length ∧
    (∀ (data : List Byte) (pos : Nat),
      ((FileIter.fromVec data).set_start_position_bytes pos).file.metadata.start_position
        ≤ data.length) := by
  have h100 : ((FileIter.fromVec (List.replicate 50 0)).set_start_position_percent
      400).file.metadata.start_position = 100 := by
    simp only [FileIter.set_start_position_percent, FileIter.fromVec, FileInfo.new,
      List.length_replicate]
    rw [show ((50:ℕ):ℚ) * ((400:ℚ)/100) = 200 by norm_num]
    rw [show min (200:ℚ) 100 = 100 by norm_num]
    exact ratToU64_eq 100 100 (by norm_num) (by norm_num [u64MAX])
  refine ⟨h100, by simp, by rw [h100]; simp, ?_⟩
  intro data pos
  simp only [FileIter.set_start_position_bytes, FileIter.fromVec, FileInfo.new]
  have : ratToU64 ((data.length : ℕ) : ℚ) ≤ data.length := by
    unfold ratToU64
    rw [Int.floor_natCast]
    omega
  omega

/-- C8 counterexample: in a state whose previously measured achieved
throughput is 3 and whose stored target (`prev_bytes_per_second`) is 1, a
zero-elapsed read reports `bytes_per_second = 1` — the stored target — not
the previous achieved value 3 the claim asks for. -/
theorem C8_carry_counterexample :
    (FilePack.read_chunk
      { metadata :=
          { size := 2,
            start_position := 0,
            chunk_info :=
              { now_bytes_per_second := 3,
                mode := .Auto,
                prev_bytes_per_second := 1 } },
        buffer := { data := [7, 8], pos := 0 },
        read_complete := false } (.ok 0)) =
      .ok ({ value := [7], bytes_per_second := 1 },
        { metadata :=
            { size := 2,
              start_position := 0,
              chunk_info :=
                { now_bytes_per_second := 3,
                  mode := .Auto,
                  prev_bytes_per_second := 1 } },
          buffer := { data := [7, 8], pos := 1 },
          read_complete := false }) ∧
    (1 : ℚ) ≠ 3 := by
  have hlim : readLimit (1 : ℚ) = 1 := readLimit_of_le_one _ le_rfl
  constructor
  · simp only [FilePack.read_chunk, hlim]
    norm_num
  · norm_num

/-- C8 (amended): in both readers, when the measured elapsed time is
exactly zero the reported throughput is carried over from
`prev_bytes_per_second` — the field that at that point holds the target
requested for this read — rather than computed as `bytes/elapsed` (and
rather than the previously measured achieved value). -/
theorem C8_carry_amended :
    (∀ (p : FilePack), ∃ c p', p.read_chunk (.ok 0) = .ok (c, p') ∧
        c.bytes_per_second = p.metadata.chunk_info.prev_bytes_per_second) ∧
    (∀ (p : stream.FilePack) (b : Buffer), p.buffer = some b →
      ∃ c p', p.read_chunk (.ok 0) = .ok (c, p') ∧
        c.bytes_per_second = p.metadata.chunk_info.prev_bytes_per_second) := by
  constructor
  · intro p
    refine ⟨_, _, rfl, ?_⟩
    simp [FilePack.read_chunk]
  · intro p b hb
    refine ⟨{ value := (b.data.drop b.pos).take (readLimit p.metadata.chunk_info.prev_bytes_per_second),
              bytes_per_second := p.metadata.chunk_info.prev_bytes_per_second },
            { p with
                buffer := some { b with pos := b.pos + ((b.data.drop b.pos).take
                  (readLimit p.metadata.chunk_info.prev_bytes_per_second)).length },
                read_complete := if ((b.data.drop b.pos).take
                  (readLimit p.metadata.chunk_info.prev_bytes_per_second)).isEmpty then true
                  else p.read_complete },
            ?_, rfl⟩
    rw [stream.FilePack.read_chunk, hb]
    simp

/-- C8 witness: the carry-over at a concrete stream pack with a present
buffer. -/
theorem C8_carry_amended_witness :
    ∃ c p', stream.FilePack.read_chunk
        { metadata := FileInfo.new 1 0,
          buffer := some { data := [5], pos := 0 },
          read_complete := false } (.ok 0) = .ok (c, p') ∧
      c.bytes_per_second = (FileInfo.new 1 0).chunk_info.prev_bytes_per_second :=
  C8_carry_amended.2 _ { data := [5], pos := 0 } rfl

/-- C9: a start offset at or beyond the total source size yields a reader
that is immediately exhausted: the first pull returns the terminal empty
signal, and the whole run yields zero non-empty chunks. -/
theorem C9_beyond_end_exhausted (data : List Byte) (mode : ChunkSize) (pos : Nat)
    (ram el : Nat → ℚ) (fuel : Nat)
    (hlen : data.length ≤ u64MAX) (h : data.length ≤ pos) :
    ((iterFor data mode pos).next (ram 0) (.ok (el 0))).1 = none ∧
    collectChunks (fuel + 1) (iterFor data mode pos) ram el = ([], true) := by
  have hpos : (iterFor data mode pos).file.buffer.pos = data.length := by
    rw [iterFor_pos data mode pos hlen]
    omega
  have hdata : (iterFor data mode pos).file.buffer.data = data := rfl
  have hdrop : (iterFor data mode pos).file.buffer.data.drop
      (iterFor data mode pos).file.buffer.pos = [] := by
    rw [hdata, hpos]
    simp
  have hnone : ∀ r e, ((iterFor data mode pos).next r (.ok e)).1 = none := by
    intro r e
    simp only [FileIter.next, FilePack.read_chunk, hdrop, List.take_nil]
    rfl
  refine ⟨hnone _ _, ?_⟩
  have hpair : (iterFor data mode pos).next (ram 0) (.ok (el 0)) =
      (none, ((iterFor data mode pos).next (ram 0) (.ok (el 0))).2) := by
    rw [← hnone (ram 0) (el 0)]
  exact collectChunks_succ_none _ _ rfl rfl hpair

/-- C9 witness: offset 5 on a 2-byte source — the first pull is the empty
signal and the run collects nothing. -/
theorem C9_beyond_end_exhausted_witness :
    ((iterFor [7, 8] .Auto 5).next 1000 (.ok 1)).1 = none ∧
    collectChunks 1 (iterFor [7, 8] .Auto 5) (fun _ => 1000) (fun _ => 1) = ([], true) :=
  C9_beyond_end_exhausted [7, 8] .Auto 5 (fun _ => 1000) (fun _ => 1) 0
    (by norm_num [u64MAX]) (by norm_num)

/-- C10: every bounded read requests at least one byte (the target is
floored at 1 before the `take` limit), so for every finite in-memory
source, every mode and all memory/timing behaviours the iterator reaches
the terminal signal within `length + 1` pulls and never yields an empty
chunk. -/
theorem C10_read_at_least_one_byte :
    (∀ q : ℚ, 1 ≤ readLimit q) ∧
    (∀ (data : List Byte) (mode : ChunkSize) (ram el : Nat → ℚ),
      (collectChunks (data.length + 1) ((FileIter.fromVec data).set_mode mode) ram el).2
        = true ∧
      ∀ c ∈ (collectChunks (data.length + 1) ((FileIter.fromVec data).set_mode mode) ram el).1,
        c ≠ []) := by
  refine ⟨one_le_readLimit, ?_⟩
  intro data mode ram el
  have h := collectChunks_spec (data.length + 1) ((FileIter.fromVec data).set_mode mode) ram el
    (by simp only [FileIter.set_mode, FileIter.fromVec, FileInfo.new]; omega)
  exact ⟨h.1, h.2.2⟩

end GetChunk
